import Mathlib

/-!
Verification development for the Nitrado API extractor's conversion engine
(`NitradoAPIConverter` in the JavaScript source).  The JavaScript code is
shallowly embedded: every definition below mirrors one method of the
converter class (or a piece of the JS standard library it relies on, such
as decimal rendering of numbers, `String.prototype.toLowerCase`, regex
replacement, and `Array.prototype.filter`).  JS strings are modelled as
Lean `String` values, character-level operations working on `List Char`;
JS `undefined`/missing fields are modelled with `Option`; the truthiness
tests the code performs on strings are made explicit as emptiness tests.
-/

/-! ## Character and string helpers (JS standard library fragments) -/

/-- Model of the regex class `\w`, i.e. `[A-Za-z0-9_]` (ASCII). -/
def isWordChar (c : Char) : Bool :=
  c.isAlpha || c.isDigit || c == '_'

/-- Model of the regex class `[a-zA-Z0-9]` used by `replace(/[^a-zA-Z0-9]/g, '')`:
keeping exactly the ASCII alphanumeric characters. -/
def isAlnumChar (c : Char) : Bool :=
  c.isAlpha || c.isDigit

/-- Model of `str.replace(/[^a-zA-Z0-9]/g, '')`. -/
def stripNonAlnum (s : String) : String :=
  (s.toList.filter isAlnumChar).asString

/-- Model of `String.prototype.toLowerCase` for the ASCII strings the code
handles (character-wise lowering). -/
def lowerStr (s : String) : String :=
  (s.toList.map Char.toLower).asString

/-- Model of `String.prototype.toUpperCase` for ASCII strings. -/
def upperStr (s : String) : String :=
  (s.toList.map Char.toUpper).asString

/-- ASCII whitespace recognised by `String.prototype.trim` (the characters
that actually occur in the data). -/
def isSpaceChar (c : Char) : Bool :=
  c == ' ' || c == '\t' || c == '\n' || c == '\r'

/-- Model of `String.prototype.trim`. -/
def trimStr (s : String) : String :=
  (((s.toList.dropWhile isSpaceChar).reverse.dropWhile isSpaceChar).reverse).asString

/-- Model of the JS expression `a || b` on an optional string `a`:
a missing or empty (falsy) string falls through to the default. -/
def jsOr (a : Option String) (b : String) : String :=
  match a with
  | some s => if s = "" then b else s
  | none => b

/-- Model of the JS expression `a || b || []` on two optional field lists:
an array is truthy even when empty, so a present first list always wins. -/
def jsOrList {α : Type} (a b : Option (List α)) : List α :=
  match a with
  | some l => l
  | none => match b with
    | some l => l
    | none => []

/-- Decides whether `pre` is a prefix of `l` (model of JS `startsWith`,
also the building block for `includes`). -/
def listIsPrefix : List Char → List Char → Bool
  | [], _ => true
  | _ :: _, [] => false
  | a :: as, b :: bs => a == b && listIsPrefix as bs

/-- Decides whether `needle` occurs as a contiguous substring of `hay`:
model of `String.prototype.includes`. -/
def containsSub (hay needle : List Char) : Bool :=
  listIsPrefix needle hay ||
    match hay with
    | [] => false
    | _ :: t => containsSub t needle

/-! ## Decimal rendering of numbers (JS template literal `${counter}`) -/

/-- Little-endian decimal digit values of `n`; `fuel` bounds the recursion
and any `fuel > n` is enough. -/
def decDigitsLE : Nat → Nat → List Nat
  | 0, _ => []
  | fuel + 1, n => if n < 10 then [n] else n % 10 :: decDigitsLE fuel (n / 10)

/-- Value of a little-endian decimal digit list. -/
def decVal : List Nat → Nat
  | [] => 0
  | d :: ds => d + 10 * decVal ds

/-- Model of JS number-to-string conversion (as in `` `${baseId}${counter}` ``):
standard decimal notation. -/
def natToString (n : Nat) : String :=
  ((decDigitsLE (n + 1) n).reverse.map Nat.digitChar).asString

theorem decVal_decDigitsLE : ∀ (fuel n : Nat), n < fuel → decVal (decDigitsLE fuel n) = n := by
  intro fuel
  induction fuel with
  | zero => intro n h; omega
  | succ f ih =>
    intro n h
    by_cases hn : n < 10
    · simp [decDigitsLE, hn, decVal]
    · have h1 : 0 < n := by omega
      have h2 : n / 10 < n := Nat.div_lt_self h1 (by omega)
      have h3 : n / 10 < f := by omega
      simp only [decDigitsLE, hn, if_false, decVal, ih (n / 10) h3]
      omega

theorem decDigitsLE_lt_ten : ∀ (fuel n : Nat), ∀ d ∈ decDigitsLE fuel n, d < 10 := by
  intro fuel
  induction fuel with
  | zero => intro n d hd; simp [decDigitsLE] at hd
  | succ f ih =>
    intro n d hd
    by_cases hn : n < 10
    · simp [decDigitsLE, hn] at hd; omega
    · simp only [decDigitsLE, hn, if_false, List.mem_cons] at hd
      rcases hd with h | h
      · omega
      · exact ih (n / 10) d h

theorem digitChar_inj_lt : ∀ a b : Fin 10, Nat.digitChar a = Nat.digitChar b → a = b := by decide

theorem map_digitChar_inj : ∀ (l1 l2 : List Nat), (∀ d ∈ l1, d < 10) → (∀ d ∈ l2, d < 10) →
    l1.map Nat.digitChar = l2.map Nat.digitChar → l1 = l2 := by
  intro l1
  induction l1 with
  | nil => intro l2 _ _ h; cases l2 <;> simp_all
  | cons a as ih =>
    intro l2 h1 h2 h
    cases l2 with
    | nil => simp at h
    | cons b bs =>
      simp only [List.map_cons, List.cons.injEq] at h
      have ha : a < 10 := h1 a (by simp)
      have hb : b < 10 := h2 b (by simp)
      have hab : a = b := by
        have := digitChar_inj_lt ⟨a, ha⟩ ⟨b, hb⟩ h.1
        simpa using congrArg Fin.val this
      have hta : as = bs := ih bs (fun d hd => h1 d (by simp [hd])) (fun d hd => h2 d (by simp [hd])) h.2
      rw [hab, hta]

theorem natToString_inj : ∀ a b : Nat, natToString a = natToString b → a = b := by
  intro a b h
  have hdata : ((decDigitsLE (a + 1) a).reverse.map Nat.digitChar)
      = ((decDigitsLE (b + 1) b).reverse.map Nat.digitChar) := congrArg String.data h
  have hrev := map_digitChar_inj _ _
    (fun d hd => decDigitsLE_lt_ten (a + 1) a d (List.mem_reverse.mp hd))
    (fun d hd => decDigitsLE_lt_ten (b + 1) b d (List.mem_reverse.mp hd)) hdata
  have hle : decDigitsLE (a + 1) a = decDigitsLE (b + 1) b := List.reverse_injective hrev
  have := decVal_decDigitsLE (a + 1) a (by omega)
  rw [hle, decVal_decDigitsLE (b + 1) b (by omega)] at this
  omega

/-! ## Identifier uniqueness ledger (`usedOperationIds` and
`ensureUniqueOperationId`).  The JS `Set` is modelled as a `List String`
in insertion order; `Set.prototype.has` is list membership and
`Set.prototype.add` of a fresh element appends it. -/

theorem suffix_exists (used : List String) (base : String) :
    ∃ k, base ++ natToString (2 + k) ∉ used := by
  by_contra hall
  push_neg at hall
  have hinj : Function.Injective (fun k => base ++ natToString (2 + k)) := by
    intro x y hxy
    simp only at hxy
    have hdata := congrArg String.data hxy
    rw [String.data_append, String.data_append] at hdata
    have := List.append_cancel_left hdata
    have hstr : natToString (2 + x) = natToString (2 + y) := by
      cases hns : natToString (2 + x)
      cases hns2 : natToString (2 + y)
      simp_all
    have := natToString_inj _ _ hstr
    omega
  have hsub : Set.range (fun k => base ++ natToString (2 + k)) ⊆ {s | s ∈ used} := by
    rintro s ⟨k, rfl⟩
    exact hall k
  exact (Set.infinite_range_of_injective hinj) ((List.finite_toSet used).subset hsub)

/-- The value of `counter` at which the probing loop in
`ensureUniqueOperationId` stops: the least `c ≥ 2` with
`baseId + c` unused. -/
def nextSuffix (used : List String) (base : String) : Nat :=
  2 + Nat.find (suffix_exists used base)

/-- Model of `ensureUniqueOperationId(baseId)`: returns the chosen
identifier together with the updated `usedOperationIds` ledger. -/
def ensureUniqueOperationId (used : List String) (baseId : String) : String × List String :=
  if baseId ∈ used then
    let uniqueId := baseId ++ natToString (nextSuffix used baseId)
    (uniqueId, used ++ [uniqueId])
  else
    (baseId, used ++ [baseId])

theorem nextSuffix_ge_two (used : List String) (base : String) : 2 ≤ nextSuffix used base := by
  simp [nextSuffix]

theorem nextSuffix_not_mem (used : List String) (base : String) :
    base ++ natToString (nextSuffix used base) ∉ used :=
  Nat.find_spec (suffix_exists used base)

theorem nextSuffix_min (used : List String) (base : String) :
    ∀ m, 2 ≤ m → m < nextSuffix used base → base ++ natToString m ∈ used := by
  intro m h2 hlt
  have hk : m - 2 < Nat.find (suffix_exists used base) := by
    simp only [nextSuffix] at hlt; omega
  have := Nat.find_min (suffix_exists used base) hk
  simp only [not_not] at this
  have hm : 2 + (m - 2) = m := by omega
  rwa [hm] at this

theorem ensureUnique_fresh (used : List String) (base : String) :
    (ensureUniqueOperationId used base).1 ∉ used := by
  by_cases h : base ∈ used
  · simp only [ensureUniqueOperationId, h, if_true]
    exact nextSuffix_not_mem used base
  · simp [ensureUniqueOperationId, h]

theorem ensureUnique_snd (used : List String) (base : String) :
    (ensureUniqueOperationId used base).2 = used ++ [(ensureUniqueOperationId used base).1] := by
  by_cases h : base ∈ used <;> simp [ensureUniqueOperationId, h]

theorem ensureUnique_of_not_mem (used : List String) (base : String) (h : base ∉ used) :
    ensureUniqueOperationId used base = (base, used ++ [base]) := by
  simp [ensureUniqueOperationId, h]

theorem ensureUnique_extends (used : List String) (base : String) :
    ∃ t : String, (ensureUniqueOperationId used base).1 = base ++ t := by
  by_cases h : base ∈ used
  · exact ⟨natToString (nextSuffix used base), by simp [ensureUniqueOperationId, h]⟩
  · exact ⟨"", by simp [ensureUniqueOperationId, h]⟩

/-! ## Path handling: `normalizePath`, path splitting, brace-token scanning -/

/-- One pass of the global regex replacement `url.replace(/:(\w+)/g, '{$1}')`,
character-by-character with `fuel` bounding the recursion (any
`fuel ≥ length` is enough): a `:` followed by a nonempty run of word
characters becomes that run wrapped in braces, everything else is copied. -/
def normCharsF : Nat → List Char → List Char
  | 0, l => l
  | _ + 1, [] => []
  | fuel + 1, c :: rest =>
      if c = ':' ∧ rest.takeWhile isWordChar ≠ [] then
        '{' :: (rest.takeWhile isWordChar ++ '}' :: normCharsF fuel (rest.dropWhile isWordChar))
      else c :: normCharsF fuel rest

/-- Character-level model of `normalizePath`. -/
def normChars (l : List Char) : List Char := normCharsF l.length l

/-- Model of `normalizePath(url)`, i.e. `url.replace(/:(\w+)/g, '{$1}')`. -/
def normalizePath (url : String) : String := (normChars url.toList).asString

/-- Scanner for the global regex match `path.match(/\{(\w+)\}/g)` followed by
stripping the braces: collects, left to right, every brace-delimited
nonempty run of word characters. -/
def braceTokensF : Nat → List Char → List (List Char)
  | 0, _ => []
  | _ + 1, [] => []
  | fuel + 1, c :: rest =>
      if c = '{' ∧ rest.takeWhile isWordChar ≠ [] ∧
          (rest.dropWhile isWordChar).head? = some '}' then
        rest.takeWhile isWordChar :: braceTokensF fuel (rest.dropWhile isWordChar).tail
      else braceTokensF fuel rest

/-- All `\{(\w+)\}` tokens of a path, in order of occurrence. -/
def braceTokens (path : String) : List (List Char) := braceTokensF path.toList.length path.toList

/-- Accumulator-style model of `String.prototype.split('/')`. -/
def splitSlashAux : List Char → List Char → List (List Char)
  | [], cur => [cur.reverse]
  | c :: rest, cur =>
      if c = '/' then cur.reverse :: splitSlashAux rest []
      else splitSlashAux rest (c :: cur)

/-- Model of `extractPathParts(url)`, i.e.
`url.replace(/^\//, '').split('/').filter(part => part)`. -/
def extractPathParts (url : String) : List String :=
  let stripped : List Char :=
    match url.toList with
    | '/' :: rest => rest
    | l => l
  ((splitSlashAux stripped []).filter (fun p => p ≠ [])).map List.asString

/-! ## PascalCase helpers -/

/-- Model of `str.replace(/_([a-z])/g, (match, letter) => letter.toUpperCase())`:
each underscore followed by a lowercase letter is replaced by that letter
uppercased, scanning left to right without overlap. -/
def underscoreCamel : List Char → List Char
  | [] => []
  | [c] => [c]
  | a :: b :: rest =>
      if a = '_' ∧ b.isLower then b.toUpper :: underscoreCamel rest
      else a :: underscoreCamel (b :: rest)

/-- Model of `str.replace(/^[a-z]/, letter => letter.toUpperCase())`. -/
def capFirstChars : List Char → List Char
  | [] => []
  | c :: rest => if c.isLower then c.toUpper :: rest else c :: rest

/-- Model of `capitalizeFirst(str)`. -/
def capitalizeFirst (s : String) : String := (capFirstChars s.toList).asString

/-- Model of `convertToPascalCase(str)`: snake-to-camel, then capitalize the
first character. -/
def convertToPascalCase (s : String) : String :=
  (capFirstChars (underscoreCamel s.toList)).asString

/-- Model of `convertParamToPascalCase(param)`; its JS body is identical to
`convertToPascalCase`. -/
def convertParamToPascalCase (s : String) : String :=
  (capFirstChars (underscoreCamel s.toList)).asString

/-- Model of the per-element branch of `processPathParts`: a part starting
with `:` is PascalCased from the text after the marker, every other part is
PascalCased directly. -/
def processPart (part : String) : String :=
  match part.toList with
  | ':' :: rest => convertParamToPascalCase rest.asString
  | _ => convertToPascalCase part

/-- Model of `processPathParts(pathParts)`. -/
def processPathParts (parts : List String) : List String := parts.map processPart

/-! ## Data model: endpoint records and the output document -/

/-- One declared field of an apiDoc field group:
`{ field, type?, optional, description? }`. -/
structure ApiField where
  field : String
  type : Option String
  optional : Bool
  description : Option String

/-- The `endpoint.parameter.fields` object; the code reads the keys
`Parameter`, `Query`, `Body` and `Request`. -/
structure ParameterFields where
  Parameter : Option (List ApiField)
  Query : Option (List ApiField)
  Body : Option (List ApiField)
  Request : Option (List ApiField)

/-- The `endpoint.header.fields` object; the code reads the key `Header`. -/
structure HeaderFields where
  Header : Option (List ApiField)

/-- The `endpoint.success.fields` object; `success200` models the JS key
`"Success 200"`. -/
structure SuccessFields where
  success200 : Option (List ApiField)
  Success : Option (List ApiField)

/-- The `endpoint.error.fields` object; `error4xx` models the JS key
`"Error 4xx"`. -/
structure ErrorFields where
  error4xx : Option (List ApiField)
  Error : Option (List ApiField)

/-- The `endpoint.deprecated` object (`content` is its optional text; a JS
falsy `content` is modelled as `none`). -/
structure DeprecatedInfo where
  content : Option String

/-- An endpoint record of the input document's `api` array.  The two-level
optional accesses `endpoint.parameter?.fields`, `endpoint.header?.fields`,
`endpoint.success?.fields` and `endpoint.error?.fields` are each collapsed
into a single `Option`; `isPublic` models the truthiness of
`endpoint.public`. -/
structure Endpoint where
  type : Option String
  url : Option String
  title : Option String
  name : Option String
  group : Option String
  description : Option String
  deprecated : Option DeprecatedInfo
  parameterFields : Option ParameterFields
  headerFields : Option HeaderFields
  successFields : Option SuccessFields
  errorFields : Option ErrorFields
  isPublic : Bool

/-! ## Operation identifier synthesis -/

/-- The fixed generic-name vocabulary of `isGenericOperationName`. -/
def genericNames : List String :=
  ["Details", "List", "Create", "Update", "Delete", "Get", "Post", "Put", "Patch",
   "Restart", "Stop", "Start", "Info", "Status", "Check", "Add", "Remove", "Set",
   "Generate", "Enable", "Disable", "Send", "Receive", "Upload", "Download"]

/-- Model of `isGenericOperationName(name)`. -/
def isGenericOperationName (name : String) : Bool :=
  genericNames.any (fun g => containsSub (lowerStr name).toList (lowerStr g).toList)
    || name.length < 4

/-- Model of `getGroupPrefix(endpoint)`: the group with non-alphanumeric
characters stripped, provided the group is truthy and not `'Default'`. -/
def getGroupPrefix (ep : Endpoint) : String :=
  match ep.group with
  | some g => if g ≠ "" ∧ g ≠ "Default" then stripNonAlnum g else ""
  | none => ""

/-- Model of `generatePathId(url)`. -/
def generatePathId (url : String) : String :=
  String.join (processPathParts (extractPathParts url))

/-- Model of `generateContextualOperationId(endpoint, cleanName, url)`. -/
def generateContextualOperationId (ep : Endpoint) (cleanName url : String) : String :=
  capitalizeFirst (getGroupPrefix ep ++ generatePathId url ++ cleanName)

/-- Model of `addPathContextIfNeeded(cleanName, url)`: URLs deeper than two
segments prepend the PascalCased last two segments. -/
def addPathContextIfNeeded (cleanName url : String) : String :=
  let pathParts := extractPathParts url
  if pathParts.length > 2 then
    let processed := processPathParts pathParts
    capitalizeFirst (String.join (processed.drop (processed.length - 2)) ++ cleanName)
  else cleanName

/-- Model of `generateOperationIdFromName(endpoint, method, url)` (the
`method` argument is accepted and ignored, as in the source). -/
def generateOperationIdFromName (ep : Endpoint) (_method url : String) : String :=
  let cleanName := stripNonAlnum (ep.name.getD "")
  if isGenericOperationName cleanName then
    generateContextualOperationId ep cleanName url
  else
    addPathContextIfNeeded cleanName url

/-- Model of `generateOperationIdFromPath(method, url)`. -/
def generateOperationIdFromPath (method url : String) : String :=
  capitalizeFirst method ++ String.join (processPathParts (extractPathParts url))

/-- Truthiness of `endpoint.name?.trim()`. -/
def hasUsableName (ep : Endpoint) : Bool :=
  match ep.name with
  | some n => trimStr n ≠ ""
  | none => false

/-- Model of `generateOperationId(endpoint)`. -/
def generateOperationId (ep : Endpoint) : String :=
  let method := lowerStr (jsOr ep.type "get")
  let url := jsOr ep.url ""
  if hasUsableName ep then generateOperationIdFromName ep method url
  else generateOperationIdFromPath method url

/-! ## Schemas and the type coercion table (`parseParameterType`) -/

/-- An OpenAPI schema value as the converter produces it: a primitive
`{type: t}`, an array of strings, a bare `{type: 'object'}`, or an object
schema with a property list (name, schema, optional description) and an
optional `required` name list. -/
inductive Schema where
  | prim (type : String)
  | arr (items : Schema)
  | objPlain
  | obj (properties : List (String × Schema × Option String)) (required : Option (List String))

/-- The keys of the `typeMap` object literal in `parseParameterType`, in
declaration (insertion) order, as enumerated by `Object.keys`. -/
def typeMapKeys : List String :=
  ["string", "number", "integer", "int", "boolean", "bool", "array", "object"]

/-- The value the `typeMap` object associates to each key. -/
def typeMapApply : String → Schema
  | "number" => Schema.prim "integer"
  | "integer" => Schema.prim "integer"
  | "int" => Schema.prim "integer"
  | "boolean" => Schema.prim "boolean"
  | "bool" => Schema.prim "boolean"
  | "array" => Schema.arr (Schema.prim "string")
  | "object" => Schema.objPlain
  | _ => Schema.prim "string"

/-- Model of `parseParameterType(type)`: falsy tokens map to the string
schema, otherwise the first table key (in declaration order) that is a
substring of the lowercased token decides the schema, defaulting to string. -/
def parseParameterType (type : Option String) : Schema :=
  match type with
  | none => Schema.prim "string"
  | some t =>
    if t = "" then Schema.prim "string"
    else
      match typeMapKeys.find? (fun key => containsSub (lowerStr t).toList key.toList) with
      | some key => typeMapApply key
      | none => Schema.prim "string"

/-! ## Operations, parameters, responses -/

/-- An entry of an operation's `parameters` array; `location` models the
JS key `in` (`in` is reserved in Lean). -/
structure Parameter where
  name : String
  location : String
  required : Bool
  schema : Schema
  description : String

/-- One response object: a description and, when the JS object carries
`content['application/json'].schema`, that schema. -/
structure Response where
  description : String
  content : Option Schema

/-- The operation's `requestBody`: its `required` flag and the
`content['application/json'].schema` object schema. -/
structure RequestBody where
  required : Bool
  schema : Schema

/-- One operation of the output document.  `deprecated` is `false` when the
JS object lacks the key; `security` models `[{BearerAuth: []}]` as an
optional list of (scheme, scopes) requirements. -/
structure Operation where
  summary : String
  description : String
  operationId : String
  tags : List String
  parameters : List Parameter
  responses : List (String × Response)
  deprecated : Bool
  requestBody : Option RequestBody
  security : Option (List (String × List String))

/-- Model of `extractPathParameters(path)`. -/
def extractPathParameters (path : String) : List Parameter :=
  (braceTokens path).map (fun tok =>
    { name := tok.asString, location := "path", required := true,
      schema := Schema.prim "string",
      description := "The " ++ tok.asString ++ " parameter" })

/-- Model of `extractQueryParameters(endpoint)`. -/
def extractQueryParameters (ep : Endpoint) : List Parameter :=
  match ep.parameterFields with
  | none => []
  | some pf =>
    (jsOrList pf.Parameter pf.Query).map (fun (p : ApiField) =>
      { name := p.field, location := "query", required := !p.optional,
        schema := parseParameterType p.type, description := jsOr p.description "" })

/-- Model of `extractHeaderParameters(endpoint)`. -/
def extractHeaderParameters (ep : Endpoint) : List Parameter :=
  match ep.headerFields with
  | none => []
  | some hf =>
    (match hf.Header with | some l => l | none => []).map (fun (p : ApiField) =>
      { name := p.field, location := "header", required := !p.optional,
        schema := Schema.prim "string", description := jsOr p.description "" })

/-- Model of `addParameters(endpoint, operation, path)`: pushes path, then
query, then header parameters. -/
def addParameters (ep : Endpoint) (op : Operation) (path : String) : Operation :=
  { op with parameters :=
      op.parameters ++ (extractPathParameters path
        ++ (extractQueryParameters ep ++ extractHeaderParameters ep)) }

/-- Model of `extractBodyParameters(endpoint)`. -/
def extractBodyParameters (ep : Endpoint) : List ApiField :=
  match ep.parameterFields with
  | none => []
  | some pf => jsOrList pf.Body pf.Request

/-- Model of `addRequestBody(endpoint, operation)`. -/
def addRequestBody (ep : Endpoint) (op : Operation) : Operation :=
  let bodyParams := extractBodyParameters ep
  if bodyParams.isEmpty then op
  else
    let properties := bodyParams.map (fun (p : ApiField) =>
      (p.field, parseParameterType p.type, some (jsOr p.description "")))
    let required := (bodyParams.filter (fun p => !p.optional)).map (fun p => p.field)
    let rb : RequestBody :=
      { required := !required.isEmpty,
        schema := Schema.obj properties (if required.isEmpty then none else some required) }
    { op with requestBody := some rb }

/-- Model of `addRequestBodyIfNeeded(endpoint, operation, method)`. -/
def addRequestBodyIfNeeded (ep : Endpoint) (op : Operation) (method : String) : Operation :=
  if method ∈ ["post", "put", "patch"] then addRequestBody ep op else op

/-- Model of `extractSuccessFields(endpoint)`. -/
def extractSuccessFields (ep : Endpoint) : List ApiField :=
  match ep.successFields with
  | none => []
  | some sf => jsOrList sf.success200 sf.Success

/-- Model of `buildResponseProperties(fields)`. -/
def buildResponseProperties (fields : List ApiField) : List (String × Schema × Option String) :=
  fields.map (fun f => (f.field, parseParameterType f.type, some (jsOr f.description "")))

/-- Model of `buildSuccessResponse(endpoint)`. -/
def buildSuccessResponse (ep : Endpoint) : Response :=
  let successFields := extractSuccessFields ep
  if successFields.isEmpty then
    { description := "Successful operation", content := some Schema.objPlain }
  else
    { description := "Successful operation",
      content := some (Schema.obj (buildResponseProperties successFields) none) }

/-- The fixed 400 response schema `{error: {message: string}}`. -/
def errorSchema : Schema :=
  Schema.obj [("error", Schema.obj [("message", Schema.prim "string", none)] none, none)] none

/-- Model of `buildErrorResponse(endpoint)` (empty list when no 400 entry). -/
def buildErrorResponse (ep : Endpoint) : List (String × Response) :=
  match ep.errorFields with
  | none => []
  | some ef =>
    if (jsOrList ef.error4xx ef.Error).isEmpty then []
    else [("400", { description := "Bad Request", content := some errorSchema })]

/-- Model of `buildStandardResponses()`. -/
def buildStandardResponses : List (String × Response) :=
  [("401", { description := "Unauthorized", content := none }),
   ("403", { description := "Forbidden", content := none }),
   ("404", { description := "Not Found", content := none }),
   ("500", { description := "Internal Server Error", content := none })]

/-- Model of `addResponses(endpoint, operation)`. -/
def addResponses (ep : Endpoint) (op : Operation) : Operation :=
  { op with responses :=
      ("200", buildSuccessResponse ep) :: (buildErrorResponse ep ++ buildStandardResponses) }

/-- Model of `addSecurityIfNeeded(endpoint, operation)`. -/
def addSecurityIfNeeded (ep : Endpoint) (op : Operation) : Operation :=
  if !ep.isPublic then { op with security := some [("BearerAuth", [])] } else op

/-- Model of `addDeprecationInfo(endpoint, operation)`. -/
def addDeprecationInfo (ep : Endpoint) (op : Operation) : Operation :=
  match ep.deprecated with
  | none => op
  | some d =>
    let op1 := { op with deprecated := true }
    match d.content with
    | some c => { op1 with description := op1.description ++ "\n\n**Deprecated:** " ++ c }
    | none => op1

/-- Model of `buildOperation(endpoint, path, method)`: returns the operation
together with the updated identifier ledger. -/
def buildOperation (used : List String) (ep : Endpoint) (path method : String) :
    Operation × List String :=
  let baseOperationId := generateOperationId ep
  let r := ensureUniqueOperationId used baseOperationId
  let operation : Operation :=
    { summary := jsOr ep.title (jsOr ep.name (upperStr method ++ " " ++ path)),
      description := jsOr ep.description "",
      operationId := r.1,
      tags := [jsOr ep.group "Default"],
      parameters := [],
      responses := [],
      deprecated := false,
      requestBody := none,
      security := none }
  let operation := addDeprecationInfo ep operation
  let operation := addParameters ep operation path
  let operation := addRequestBodyIfNeeded ep operation method
  let operation := addResponses ep operation
  let operation := addSecurityIfNeeded ep operation
  (operation, r.2)

/-! ## The output document and the assembler -/

/-- The map of lowercase method keys to operations under one path, in JS
object key insertion order. -/
abbrev MethodMap := List (String × Operation)

/-- The `paths` object: normalized path strings to method maps, in key
insertion order. -/
abbrev Paths := List (String × MethodMap)

/-- JS property assignment `obj[m] = op` on a method map: overwrite in
place, or append a new key at the end. -/
def setMethod : MethodMap → String → Operation → MethodMap
  | [], m, op => [(m, op)]
  | e :: rest, m, op => if e.1 = m then (m, op) :: rest else e :: setMethod rest m op

/-- Combined model of `ensurePathExists` followed by
`paths[path][method] = operation`. -/
def setPath : Paths → String → String → Operation → Paths
  | [], p, m, op => [(p, [(m, op)])]
  | e :: rest, p, m, op =>
      if e.1 = p then (p, setMethod e.2 m op) :: rest else e :: setPath rest p m op

/-- The mutable state threaded through the per-endpoint conversion loop:
the `paths` object under construction and the `usedOperationIds` ledger. -/
structure ConvState where
  paths : Paths
  used : List String

/-- Model of `convertEndpoint(endpoint, openAPISpec)`: records without a
truthy `url` are skipped; the destructuring default `type: method = 'get'`
applies only to an absent method. -/
def convertEndpoint (s : ConvState) (ep : Endpoint) : ConvState :=
  match ep.url with
  | none => s
  | some u =>
    if u = "" then s
    else
      let path := normalizePath u
      let normalizedMethod := lowerStr (ep.type.getD "get")
      let r := buildOperation s.used ep path normalizedMethod
      { paths := setPath s.paths path normalizedMethod r.1, used := r.2 }

/-- The static configuration the assembler copies into the document. -/
structure Config where
  serverUrl : String
  apiTitle : String
  apiDescription : String
  apiVersion : String
  contactName : String
  contactUrl : String
  licenseUrl : String

/-- The document's `info` block, as built by `createAPIInfo()`. -/
structure APIInfo where
  title : String
  description : String
  version : String
  contactName : String
  contactUrl : String
  licenseName : String
  licenseUrl : String

/-- Model of `createAPIInfo()`. -/
def createAPIInfo (c : Config) : APIInfo :=
  { title := c.apiTitle, description := c.apiDescription, version := c.apiVersion,
    contactName := c.contactName, contactUrl := c.contactUrl,
    licenseName := "Proprietary", licenseUrl := c.licenseUrl }

/-- One entry of the `servers` array. -/
structure Server where
  url : String
  description : String

/-- Model of `createServers()`. -/
def createServers (c : Config) : List Server :=
  [{ url := c.serverUrl, description := "Nitrado API Server" }]

/-- A `securitySchemes` entry. -/
structure SecurityScheme where
  type : String
  scheme : String
  description : String

/-- The document's `components` block. -/
structure Components where
  schemas : List (String × Schema)
  securitySchemes : List (String × SecurityScheme)

/-- Model of `createComponents()`. -/
def createComponents : Components :=
  { schemas := [],
    securitySchemes := [("BearerAuth",
      { type := "http", scheme := "bearer", description := "Bearer token authentication" })] }

/-- The output document, as assembled by `createBaseOpenAPISpec` and then
populated. -/
structure OpenAPISpec where
  openapi : String
  info : APIInfo
  servers : List Server
  paths : Paths
  components : Components

/-- The parsed input document; `api` is `some` exactly when the parsed data
has a truthy `api` value (an array of endpoint records). -/
structure ApiData where
  api : Option (List Endpoint)

/-- A converter instance's state as far as `convertToOpenAPI` reads it. -/
structure ConverterState where
  config : Config
  apiData : Option ApiData
  usedOperationIds : List String

/-- The message of the error thrown by `validateAPIData`. -/
def noDataMsg : String := "No API data available. Please fetch data first."

/-- Model of `validateAPIData()`: `some` endpoint list iff
`this.apiData?.api` is truthy. -/
def validateAPIData (st : ConverterState) : Option (List Endpoint) :=
  match st.apiData with
  | none => none
  | some d => d.api

/-- The per-run conversion over the endpoint list, starting from the
cleared ledger and the empty `paths` object of the fresh skeleton. -/
def convertCore (endpoints : List Endpoint) : ConvState :=
  endpoints.foldl convertEndpoint { paths := [], used := [] }

/-- Model of `convertToOpenAPI()`: validates the input state, clears the
`usedOperationIds` ledger, builds the skeleton, converts every endpoint,
and returns the populated document; the thrown error is an `Except.error`. -/
def convertToOpenAPI (st : ConverterState) : Except String OpenAPISpec :=
  match validateAPIData st with
  | none => Except.error noDataMsg
  | some endpoints =>
    let cleared : ConverterState := { st with usedOperationIds := [] }
    let final := endpoints.foldl convertEndpoint { paths := [], used := cleared.usedOperationIds }
    Except.ok
      { openapi := "3.1.1", info := createAPIInfo st.config, servers := createServers st.config,
        paths := final.paths, components := createComponents }

/-- Lookup of `paths[p][m]` in the output document. -/
def getOp (ps : Paths) (p m : String) : Option Operation :=
  match ps.find? (fun e => e.1 = p) with
  | none => none
  | some e =>
    match e.2.find? (fun me => me.1 = m) with
    | none => none
    | some me => some me.2

/-- All operations stored in a `paths` object. -/
def allOps (ps : Paths) : List Operation :=
  (ps.map (fun e => e.2.map (fun me => me.2))).flatten

/-- All operation identifiers stored in a `paths` object. -/
def opIds (ps : Paths) : List String :=
  (allOps ps).map (fun op => op.operationId)

/-- The all-fields-absent endpoint record, for building concrete examples. -/
def emptyEndpoint : Endpoint :=
  { type := none, url := none, title := none, name := none, group := none,
    description := none, deprecated := none, parameterFields := none,
    headerFields := none, successFields := none, errorFields := none, isPublic := false }

example : normalizePath "/x/:a/:b_c" = "/x/{a}/{b_c}" := rfl

example : generateOperationId { emptyEndpoint with
    type := some "get", url := some "/users/profile", name := some "GetUserProfile" }
    = "UsersProfileGetUserProfile" := rfl

example : generateOperationId { emptyEndpoint with
    type := some "get", url := some "/services/:id/gameservers/games/minecraft",
    name := some "Details", group := some "Game_Minecraft" }
    = "GameMinecraftServicesIdGameserversGamesMinecraftDetails" := rfl

example : generateOperationId { emptyEndpoint with
    type := some "get", url := some "/company/stats" } = "GetCompanyStats" := rfl

example : generateOperationId { emptyEndpoint with
    type := some "post", url := some "/services/:service_id/gameservers/:id" }
    = "PostServicesServiceIdGameserversId" := rfl

example : generateOperationId { emptyEndpoint with
    type := some "get", name := some "TestOperation" } = "TestOperation" := rfl

example : generateOperationId { emptyEndpoint with
    type := some "get", url := some "/very/deep/path/structure/with/many/parts",
    name := some "Get" } = "VeryDeepPathStructureWithManyPartsGet" := rfl

example : generateOperationId { emptyEndpoint with
    type := some "put", url := some "/services/:service_id/users/:user_id" }
    = "PutServicesServiceIdUsersUserId" := rfl

example : parseParameterType (some "Integer") = Schema.prim "integer" := rfl

example : parseParameterType (some "whatever") = Schema.prim "string" := rfl

/-! ## Structural lemmas about the document and the ledger -/

/-- The operations of one method map. -/
def methodOps (ms : MethodMap) : List Operation := ms.map (fun me => me.2)

theorem allOps_cons (e : String × MethodMap) (rest : Paths) :
    allOps (e :: rest) = methodOps e.2 ++ allOps rest := by
  simp [allOps, methodOps]

theorem setMethod_ops_le (ms : MethodMap) (m : String) (op : Operation) :
    (↑(methodOps (setMethod ms m op)) : Multiset Operation) ≤ ↑(methodOps ms) + {op} := by
  induction ms with
  | nil =>
    simp [setMethod, methodOps]
  | cons e rest ih =>
    by_cases h : e.1 = m
    · simp only [setMethod, h, if_true, methodOps, List.map_cons, ← Multiset.cons_coe]
      calc (op ::ₘ ↑(rest.map (fun me => me.2)) : Multiset Operation)
          = ↑(rest.map (fun me => me.2)) + {op} := by
            rw [← Multiset.singleton_add, add_comm]
        _ ≤ (e.2 ::ₘ ↑(rest.map (fun me => me.2))) + {op} :=
            add_le_add_right (Multiset.le_cons_self _ _) _
    · simp only [setMethod, h, if_false, methodOps, List.map_cons, ← Multiset.cons_coe]
      rw [Multiset.cons_add]
      exact Multiset.cons_le_cons _ ih

theorem setPath_ops_le (ps : Paths) (p m : String) (op : Operation) :
    (↑(allOps (setPath ps p m op)) : Multiset Operation) ≤ ↑(allOps ps) + {op} := by
  induction ps with
  | nil =>
    simp [setPath, allOps]
  | cons e rest ih =>
    by_cases h : e.1 = p
    · simp only [setPath, h, if_true, allOps_cons, ← Multiset.coe_add]
      calc (↑(methodOps (setMethod e.2 m op)) + ↑(allOps rest) : Multiset Operation)
          ≤ (↑(methodOps e.2) + {op}) + ↑(allOps rest) :=
            add_le_add_right (setMethod_ops_le e.2 m op) _
        _ = (↑(methodOps e.2) + ↑(allOps rest)) + {op} := by
            rw [add_right_comm]
    · simp only [setPath, h, if_false, allOps_cons, ← Multiset.coe_add]
      calc (↑(methodOps e.2) + ↑(allOps (setPath rest p m op)) : Multiset Operation)
          ≤ ↑(methodOps e.2) + (↑(allOps rest) + {op}) := add_le_add_left ih _
        _ = (↑(methodOps e.2) + ↑(allOps rest)) + {op} := by rw [add_assoc]

theorem setPath_ids_le (ps : Paths) (p m : String) (op : Operation) :
    (↑(opIds (setPath ps p m op)) : Multiset String) ≤ ↑(opIds ps) + {op.operationId} := by
  have h := Multiset.map_le_map (f := fun o : Operation => o.operationId) (setPath_ops_le ps p m op)
  simpa [opIds, Multiset.map_coe] using h

/-! ## Field preservation through the operation-building steps -/

theorem addDeprecationInfo_operationId (ep : Endpoint) (op : Operation) :
    (addDeprecationInfo ep op).operationId = op.operationId := by
  unfold addDeprecationInfo
  cases ep.deprecated with
  | none => rfl
  | some d => rcases d with ⟨c⟩; cases c <;> rfl

theorem addDeprecationInfo_security (ep : Endpoint) (op : Operation) :
    (addDeprecationInfo ep op).security = op.security := by
  unfold addDeprecationInfo
  cases ep.deprecated with
  | none => rfl
  | some d => rcases d with ⟨c⟩; cases c <;> rfl

theorem addDeprecationInfo_parameters (ep : Endpoint) (op : Operation) :
    (addDeprecationInfo ep op).parameters = op.parameters := by
  unfold addDeprecationInfo
  cases ep.deprecated with
  | none => rfl
  | some d => rcases d with ⟨c⟩; cases c <;> rfl

theorem addParameters_operationId (ep : Endpoint) (op : Operation) (path : String) :
    (addParameters ep op path).operationId = op.operationId := rfl

theorem addParameters_security (ep : Endpoint) (op : Operation) (path : String) :
    (addParameters ep op path).security = op.security := rfl

theorem addRequestBody_operationId (ep : Endpoint) (op : Operation) :
    (addRequestBody ep op).operationId = op.operationId := by
  unfold addRequestBody
  by_cases h : (extractBodyParameters ep).isEmpty <;> simp [h]

theorem addRequestBody_security (ep : Endpoint) (op : Operation) :
    (addRequestBody ep op).security = op.security := by
  unfold addRequestBody
  by_cases h : (extractBodyParameters ep).isEmpty <;> simp [h]

theorem addRequestBody_parameters (ep : Endpoint) (op : Operation) :
    (addRequestBody ep op).parameters = op.parameters := by
  unfold addRequestBody
  by_cases h : (extractBodyParameters ep).isEmpty <;> simp [h]

theorem addRequestBodyIfNeeded_operationId (ep : Endpoint) (op : Operation) (m : String) :
    (addRequestBodyIfNeeded ep op m).operationId = op.operationId := by
  unfold addRequestBodyIfNeeded
  split
  · exact addRequestBody_operationId ep op
  · rfl

theorem addRequestBodyIfNeeded_security (ep : Endpoint) (op : Operation) (m : String) :
    (addRequestBodyIfNeeded ep op m).security = op.security := by
  unfold addRequestBodyIfNeeded
  split
  · exact addRequestBody_security ep op
  · rfl

theorem addRequestBodyIfNeeded_parameters (ep : Endpoint) (op : Operation) (m : String) :
    (addRequestBodyIfNeeded ep op m).parameters = op.parameters := by
  unfold addRequestBodyIfNeeded
  split
  · exact addRequestBody_parameters ep op
  · rfl

theorem addResponses_operationId (ep : Endpoint) (op : Operation) :
    (addResponses ep op).operationId = op.operationId := rfl

theorem addResponses_security (ep : Endpoint) (op : Operation) :
    (addResponses ep op).security = op.security := rfl

theorem addResponses_parameters (ep : Endpoint) (op : Operation) :
    (addResponses ep op).parameters = op.parameters := rfl

theorem addSecurityIfNeeded_operationId (ep : Endpoint) (op : Operation) :
    (addSecurityIfNeeded ep op).operationId = op.operationId := by
  unfold addSecurityIfNeeded
  split <;> rfl

theorem addSecurityIfNeeded_parameters (ep : Endpoint) (op : Operation) :
    (addSecurityIfNeeded ep op).parameters = op.parameters := by
  unfold addSecurityIfNeeded
  split <;> rfl

theorem buildOperation_operationId (used : List String) (ep : Endpoint) (path m : String) :
    ((buildOperation used ep path m).1).operationId
      = (ensureUniqueOperationId used (generateOperationId ep)).1 := by
  unfold buildOperation
  rw [addSecurityIfNeeded_operationId, addResponses_operationId,
    addRequestBodyIfNeeded_operationId, addParameters_operationId,
    addDeprecationInfo_operationId]

theorem buildOperation_snd (used : List String) (ep : Endpoint) (path m : String) :
    (buildOperation used ep path m).2
      = (ensureUniqueOperationId used (generateOperationId ep)).2 := rfl

theorem buildOperation_security (used : List String) (ep : Endpoint) (path m : String) :
    ((buildOperation used ep path m).1).security
      = if ep.isPublic then none else some [("BearerAuth", [])] := by
  unfold buildOperation addSecurityIfNeeded
  cases hp : ep.isPublic <;>
    simp [hp, addResponses_security, addRequestBodyIfNeeded_security,
      addParameters_security, addDeprecationInfo_security]

theorem buildOperation_parameters (used : List String) (ep : Endpoint) (path m : String) :
    ((buildOperation used ep path m).1).parameters
      = extractPathParameters path ++ (extractQueryParameters ep ++ extractHeaderParameters ep) := by
  unfold buildOperation
  rw [addSecurityIfNeeded_parameters, addResponses_parameters,
    addRequestBodyIfNeeded_parameters]
  simp [addParameters, addDeprecationInfo_parameters]

/-! ## The per-run invariant behind identifier uniqueness -/

/-- Invariant threaded through the conversion loop: every identifier in the
document under construction is registered in the ledger, and the ledger has
no duplicates. -/
def ledgerInv (s : ConvState) : Prop :=
  ((↑(opIds s.paths) : Multiset String) ≤ ↑s.used) ∧ s.used.Nodup

theorem convertEndpoint_inv (s : ConvState) (ep : Endpoint) (h : ledgerInv s) :
    ledgerInv (convertEndpoint s ep) := by
  unfold convertEndpoint
  cases hu : ep.url with
  | none => exact h
  | some u =>
    by_cases he : u = ""
    · simpa [he] using h
    · simp only [he, if_false]
      set base := generateOperationId ep with hbase
      set newId := (ensureUniqueOperationId s.used base).1 with hnew
      constructor
      · calc (↑(opIds (setPath s.paths (normalizePath u) (lowerStr (ep.type.getD "get"))
              (buildOperation s.used ep (normalizePath u) (lowerStr (ep.type.getD "get"))).1))
              : Multiset String)
            ≤ ↑(opIds s.paths)
                + {((buildOperation s.used ep (normalizePath u)
                    (lowerStr (ep.type.getD "get"))).1).operationId} := setPath_ids_le _ _ _ _
          _ = ↑(opIds s.paths) + {newId} := by rw [buildOperation_operationId, hnew, hbase]
          _ ≤ ↑s.used + {newId} := add_le_add_right h.1 _
          _ = ↑(s.used ++ [newId]) := by
              rw [← Multiset.coe_singleton, Multiset.coe_add]
          _ = ↑((buildOperation s.used ep (normalizePath u)
                (lowerStr (ep.type.getD "get"))).2) := by
              rw [buildOperation_snd, ensureUnique_snd, hnew, hbase]
      · show ((buildOperation s.used ep (normalizePath u) (lowerStr (ep.type.getD "get"))).2).Nodup
        rw [buildOperation_snd, ensureUnique_snd]
        rw [List.nodup_append]
        refine ⟨h.2, List.nodup_singleton _, ?_⟩
        intro a ha hb
        simp only [List.mem_singleton] at hb
        subst hb
        exact ensureUnique_fresh s.used base ha

theorem foldl_inv (l : List Endpoint) :
    ∀ s : ConvState, ledgerInv s → ledgerInv (l.foldl convertEndpoint s) := by
  induction l with
  | nil => intro s h; exact h
  | cons e rest ih => intro s h; exact ih _ (convertEndpoint_inv s e h)

/-- C1.  For every input set of endpoint records, the operation identifiers
of the document produced by one `convertToOpenAPI` call are pairwise
distinct. -/
theorem convert_operationIds_nodup (st : ConverterState) (spec : OpenAPISpec)
    (h : convertToOpenAPI st = Except.ok spec) : (opIds spec.paths).Nodup := by
  unfold convertToOpenAPI at h
  cases hv : validateAPIData st with
  | none => rw [hv] at h; exact absurd h (by simp)
  | some endpoints =>
    rw [hv] at h
    simp only [Except.ok.injEq] at h
    have hinv : ledgerInv (endpoints.foldl convertEndpoint { paths := [], used := [] }) := by
      apply foldl_inv
      constructor
      · simp [opIds, allOps]
      · exact List.nodup_nil
    have hpaths : spec.paths = (endpoints.foldl convertEndpoint { paths := [], used := [] }).paths := by
      rw [← h]
    rw [hpaths]
    have hnodup : Multiset.Nodup (↑(opIds (endpoints.foldl convertEndpoint
        { paths := [], used := [] }).paths) : Multiset String) :=
      Multiset.nodup_of_le hinv.1 (Multiset.coe_nodup.mpr hinv.2)
    exact Multiset.coe_nodup.mp hnodup

/-- A concrete configuration for witness states. -/
def witnessConfig : Config :=
  { serverUrl := "https://api.nitrado.net", apiTitle := "Nitrado API",
    apiDescription := "API", apiVersion := "1.0.0", contactName := "Support",
    contactUrl := "https://nitrado.net/support", licenseUrl := "https://nitrado.net/terms" }

/-- A two-record input whose conversion exercises the full pipeline. -/
def c1Endpoints : List Endpoint :=
  [{ emptyEndpoint with type := some "get", url := some "/company/stats" },
   { emptyEndpoint with type := some "post", url := some "/company/stats" }]

/-- The converter state holding `c1Endpoints`. -/
def c1State : ConverterState :=
  { config := witnessConfig, apiData := some ⟨some c1Endpoints⟩, usedOperationIds := [] }

/-- The document `convertToOpenAPI` produces from `c1State`. -/
def c1Spec : OpenAPISpec :=
  { openapi := "3.1.1", info := createAPIInfo witnessConfig,
    servers := createServers witnessConfig,
    paths := (c1Endpoints.foldl convertEndpoint { paths := [], used := [] }).paths,
    components := createComponents }

/-- Witness for C1 at a concrete two-record input. -/
theorem convert_operationIds_nodup_witness :
    convertToOpenAPI c1State = Except.ok c1Spec ∧ (opIds c1Spec.paths).Nodup :=
  ⟨rfl, convert_operationIds_nodup c1State c1Spec rfl⟩

/-! ## Concrete evaluation of the collision branch -/

theorem nextSuffix_eq_two (used : List String) (base : String)
    (h2 : base ++ natToString 2 ∉ used) : nextSuffix used base = 2 := by
  unfold nextSuffix
  have : Nat.find (suffix_exists used base) = 0 :=
    (Nat.find_eq_zero (suffix_exists used base)).mpr h2
  omega

theorem ensureUnique_collision (used : List String) (base : String)
    (h : base ∈ used) (h2 : base ++ natToString 2 ∉ used) :
    ensureUniqueOperationId used base
      = (base ++ natToString 2, used ++ [base ++ natToString 2]) := by
  simp [ensureUniqueOperationId, h, nextSuffix_eq_two used base h2]

/-- C2.  The reserve operation returns an unregistered candidate unchanged
and appends it to the ledger; a registered candidate gets the smallest
decimal suffix `n ≥ 2` making it unregistered; and `convertToOpenAPI`
resets the ledger first, so its result does not depend on the ledger the
instance carried before the call. -/
theorem ensureUnique_contract :
    (∀ (used : List String) (base : String), base ∉ used →
      ensureUniqueOperationId used base = (base, used ++ [base])) ∧
    (∀ (used : List String) (base : String), base ∈ used →
      ∃ n, 2 ≤ n ∧
        (ensureUniqueOperationId used base).1 = base ++ natToString n ∧
        (ensureUniqueOperationId used base).1 ∉ used ∧
        (∀ m, 2 ≤ m → m < n → base ++ natToString m ∈ used) ∧
        (ensureUniqueOperationId used base).2
          = used ++ [(ensureUniqueOperationId used base).1]) ∧
    (∀ st₁ st₂ : ConverterState, st₁.config = st₂.config → st₁.apiData = st₂.apiData →
      convertToOpenAPI st₁ = convertToOpenAPI st₂) := by
  refine ⟨ensureUnique_of_not_mem, ?_, ?_⟩
  · intro used base h
    refine ⟨nextSuffix used base, nextSuffix_ge_two used base, ?_, ?_, nextSuffix_min used base,
      ensureUnique_snd used base⟩
    · simp [ensureUniqueOperationId, h]
    · exact ensureUnique_fresh used base
  · intro st₁ st₂ hc hd
    unfold convertToOpenAPI validateAPIData
    rw [hc, hd]

/-- Witness for C2: a fresh candidate on a concrete ledger, a collision on a
concrete ledger (with its concrete outcome), and two states differing only
in their leftover ledgers. -/
theorem ensureUnique_contract_witness :
    (("B" : String) ∉ (["A"] : List String)
      ∧ ensureUniqueOperationId ["A"] "B" = ("B", ["A", "B"])) ∧
    (("Op" : String) ∈ (["Op"] : List String)
      ∧ (∃ n, 2 ≤ n ∧
          (ensureUniqueOperationId ["Op"] "Op").1 = "Op" ++ natToString n ∧
          (ensureUniqueOperationId ["Op"] "Op").1 ∉ (["Op"] : List String) ∧
          (∀ m, 2 ≤ m → m < n → "Op" ++ natToString m ∈ (["Op"] : List String)) ∧
          (ensureUniqueOperationId ["Op"] "Op").2
            = ["Op"] ++ [(ensureUniqueOperationId ["Op"] "Op").1])
      ∧ ensureUniqueOperationId ["Op"] "Op" = ("Op2", ["Op", "Op2"])) ∧
    convertToOpenAPI c1State
      = convertToOpenAPI { c1State with usedOperationIds := ["LeftoverId"] } := by
  refine ⟨⟨by decide, ensureUnique_contract.1 ["A"] "B" (by decide)⟩,
    ⟨by decide, ensureUnique_contract.2.1 ["Op"] "Op" (by decide), ?_⟩,
    ensureUnique_contract.2.2 _ _ rfl rfl⟩
  have h := ensureUnique_collision ["Op"] "Op" (by decide) (by decide)
  simpa using h

/-- C6.  Type coercion: case-insensitive substring match against the fixed
table in declaration order, first match wins, everything else (unknown,
empty, or absent tokens) defaults to the string kind. -/
theorem parseParameterType_contract :
    parseParameterType (some "Integer") = Schema.prim "integer" ∧
    parseParameterType (some "whatever") = Schema.prim "string" ∧
    parseParameterType none = Schema.prim "string" ∧
    parseParameterType (some "") = Schema.prim "string" ∧
    parseParameterType (some "intstring") = Schema.prim "string" ∧
    (∀ t : String, (∀ k ∈ typeMapKeys, containsSub (lowerStr t).toList k.toList = false) →
      parseParameterType (some t) = Schema.prim "string") ∧
    (∀ (t k : String),
      typeMapKeys.find? (fun key => containsSub (lowerStr t).toList key.toList) = some k →
      t ≠ "" → parseParameterType (some t) = typeMapApply k) := by
  refine ⟨rfl, rfl, rfl, rfl, rfl, ?_, ?_⟩
  · intro t h
    unfold parseParameterType
    by_cases he : t = ""
    · simp [he]
    · have hn : typeMapKeys.find? (fun key => containsSub (lowerStr t).toList key.toList) = none :=
        List.find?_eq_none.mpr (fun k hk => by
          simp only [String.toList] at *
          simp [h k hk])
      simp only [String.toList] at hn
      simp [he, hn]
  · intro t k hf he
    unfold parseParameterType
    simp only [String.toList] at hf
    simp [he, hf]

/-- Witness for C6: the general conjuncts applied at concrete tokens. -/
theorem parseParameterType_contract_witness :
    ((∀ k ∈ typeMapKeys, containsSub (lowerStr "TEXT").toList k.toList = false)
      ∧ parseParameterType (some "TEXT") = Schema.prim "string") ∧
    (typeMapKeys.find?
        (fun key => containsSub (lowerStr "BigInt").toList key.toList) = some "int"
      ∧ ("BigInt" : String) ≠ ""
      ∧ parseParameterType (some "BigInt") = typeMapApply "int"
      ∧ typeMapApply "int" = Schema.prim "integer") :=
  ⟨⟨by decide, parseParameterType_contract.2.2.2.2.2.1 "TEXT" (by decide)⟩,
   ⟨by decide, by decide,
    parseParameterType_contract.2.2.2.2.2.2 "BigInt" "int" (by decide) (by decide), rfl⟩⟩

/-- The idle converter state: nothing loaded. -/
def idleState : ConverterState :=
  { config := witnessConfig, apiData := none, usedOperationIds := [] }

/-- A loaded document that lacks the `api` endpoint-record array. -/
def noApiState : ConverterState :=
  { config := witnessConfig, apiData := some ⟨none⟩, usedOperationIds := [] }

/-- C8.  Converting with no loaded data, or with a loaded document lacking
the `api` endpoint-record array, fails with the "no data available" error
and returns no document. -/
theorem convert_no_data_error (st : ConverterState)
    (h : st.apiData = none ∨ ∃ d, st.apiData = some d ∧ d.api = none) :
    convertToOpenAPI st = Except.error noDataMsg := by
  unfold convertToOpenAPI validateAPIData
  rcases h with h | ⟨d, hd, ha⟩
  · simp [h]
  · simp [hd, ha]

/-- Witness for C8 at the two concrete invalid states. -/
theorem convert_no_data_error_witness :
    convertToOpenAPI idleState = Except.error noDataMsg ∧
    convertToOpenAPI noApiState = Except.error noDataMsg :=
  ⟨convert_no_data_error idleState (Or.inl rfl),
   convert_no_data_error noApiState (Or.inr ⟨⟨none⟩, rfl, rfl⟩)⟩

/-! ## Security propagation through a whole run -/

/-- Unfolding equation for `convertEndpoint` on a record with a usable URL. -/
theorem convertEndpoint_of_url (s : ConvState) (ep : Endpoint) (u : String)
    (hu : ep.url = some u) (hne : u ≠ "") :
    convertEndpoint s ep
      = { paths := setPath s.paths (normalizePath u) (lowerStr (ep.type.getD "get"))
            (buildOperation s.used ep (normalizePath u) (lowerStr (ep.type.getD "get"))).1,
          used := (buildOperation s.used ep (normalizePath u)
            (lowerStr (ep.type.getD "get"))).2 } := by
  unfold convertEndpoint
  rw [hu]
  exact if_neg hne

/-- Unfolding equation for `convertEndpoint` on a record without a URL. -/
theorem convertEndpoint_skip_none (s : ConvState) (ep : Endpoint)
    (hu : ep.url = none) : convertEndpoint s ep = s := by
  unfold convertEndpoint
  rw [hu]

/-- Unfolding equation for `convertEndpoint` on a record with an empty URL. -/
theorem convertEndpoint_skip_empty (s : ConvState) (ep : Endpoint)
    (hu : ep.url = some "") : convertEndpoint s ep = s := by
  unfold convertEndpoint
  rw [hu]
  exact if_pos rfl

theorem convertEndpoint_security_step (s : ConvState) (ep : Endpoint)
    (hpub : ep.isPublic = false)
    (hs : ∀ op ∈ allOps s.paths, op.security = some [("BearerAuth", [])]) :
    ∀ op ∈ allOps (convertEndpoint s ep).paths, op.security = some [("BearerAuth", [])] := by
  intro op hop
  cases hu : ep.url with
  | none => rw [convertEndpoint_skip_none s ep hu] at hop; exact hs op hop
  | some u =>
    by_cases he : u = ""
    · rw [he] at hu
      rw [convertEndpoint_skip_empty s ep hu] at hop
      exact hs op hop
    · rw [convertEndpoint_of_url s ep u hu he] at hop
      have hle := setPath_ops_le s.paths (normalizePath u) (lowerStr (ep.type.getD "get"))
        (buildOperation s.used ep (normalizePath u) (lowerStr (ep.type.getD "get"))).1
      have hmem : op ∈ (↑(allOps s.paths)
          + {(buildOperation s.used ep (normalizePath u) (lowerStr (ep.type.getD "get"))).1}
          : Multiset Operation) :=
        Multiset.mem_of_le hle (Multiset.mem_coe.mpr hop)
      rcases Multiset.mem_add.mp hmem with hold | hnew
      · exact hs op (Multiset.mem_coe.mp hold)
      · have heq : op = (buildOperation s.used ep (normalizePath u)
            (lowerStr (ep.type.getD "get"))).1 := Multiset.mem_singleton.mp hnew
        rw [heq, buildOperation_security, hpub]
        simp

theorem convertFold_security (l : List Endpoint) :
    ∀ s : ConvState, (∀ ep ∈ l, ep.isPublic = false) →
      (∀ op ∈ allOps s.paths, op.security = some [("BearerAuth", [])]) →
      ∀ op ∈ allOps (l.foldl convertEndpoint s).paths,
        op.security = some [("BearerAuth", [])] := by
  induction l with
  | nil => intro s _ hs; exact hs
  | cons e rest ih =>
    intro s hl hs
    exact ih _ (fun ep hep => hl ep (List.mem_cons_of_mem _ hep))
      (convertEndpoint_security_step s e (hl e (List.mem_cons_self _ _)) hs)

/-- C9.  Every built operation carries the bearer-auth security requirement
exactly when its endpoint record is not marked public; consequently in a
run whose records are all non-public, every operation of the output
document carries it; and the document returned by `convertToOpenAPI` is
exactly the one assembled from the validated record list. -/
theorem operation_security_contract :
    (∀ (used : List String) (ep : Endpoint) (path m : String),
      ((buildOperation used ep path m).1).security
        = if ep.isPublic then none else some [("BearerAuth", [])]) ∧
    (∀ endpoints : List Endpoint, (∀ ep ∈ endpoints, ep.isPublic = false) →
      ∀ op ∈ allOps (convertCore endpoints).paths,
        op.security = some [("BearerAuth", [])]) ∧
    (∀ (st : ConverterState) (spec : OpenAPISpec), convertToOpenAPI st = Except.ok spec →
      ∃ endpoints, validateAPIData st = some endpoints
        ∧ spec.paths = (convertCore endpoints).paths) := by
  refine ⟨buildOperation_security, ?_, ?_⟩
  · intro endpoints h
    unfold convertCore
    exact convertFold_security endpoints { paths := [], used := [] } h
      (by intro op hop; simp [allOps] at hop)
  · intro st spec h
    unfold convertToOpenAPI at h
    cases hv : validateAPIData st with
    | none => rw [hv] at h; exact absurd h (by simp)
    | some endpoints =>
      rw [hv] at h
      simp only [Except.ok.injEq] at h
      exact ⟨endpoints, rfl, by rw [← h]; rfl⟩

/-- A public endpoint record. -/
def pubEndpoint : Endpoint := { emptyEndpoint with url := some "/ping", isPublic := true }

/-- Witness for C9: a public record gets no security requirement, a
non-public one gets bearer auth, and the document of a concrete all-private
run has it on every operation. -/
theorem operation_security_contract_witness :
    ((buildOperation [] pubEndpoint "/ping" "get").1).security = none ∧
    ((buildOperation [] { emptyEndpoint with url := some "/ping" } "/ping" "get").1).security
      = some [("BearerAuth", [])] ∧
    ((∀ ep ∈ c1Endpoints, ep.isPublic = false) ∧
      ∀ op ∈ allOps (convertCore c1Endpoints).paths,
        op.security = some [("BearerAuth", [])]) ∧
    (∃ endpoints, validateAPIData c1State = some endpoints
      ∧ c1Spec.paths = (convertCore endpoints).paths) := by
  refine ⟨?_, ?_, ⟨by decide, operation_security_contract.2.1 c1Endpoints (by decide)⟩,
    operation_security_contract.2.2 c1State c1Spec rfl⟩
  · rw [operation_security_contract.1]
    rfl
  · rw [operation_security_contract.1]
    rfl

/-! ## Lookup after insertion -/

theorem find?_setMethod (ms : MethodMap) (m : String) (op : Operation) :
    (setMethod ms m op).find? (fun me => me.1 = m) = some (m, op) := by
  induction ms with
  | nil => simp [setMethod]
  | cons e rest ih =>
    by_cases h : e.1 = m
    · simp [setMethod, h]
    · simp [setMethod, h, List.find?_cons, ih]

theorem getOp_setPath (ps : Paths) (p m : String) (op : Operation) :
    getOp (setPath ps p m op) p m = some op := by
  induction ps with
  | nil => simp [setPath, getOp, find?_setMethod]
  | cons e rest ih =>
    by_cases h : e.1 = p
    · simp [setPath, h, getOp, find?_setMethod]
    · simp only [setPath, h, if_false]
      unfold getOp
      simp only [List.find?_cons, h]
      exact ih

/-- C10.  A record that has a URL but no declared method is converted (not
skipped) and inserted under the lowercase method key `get`; if it also has
no usable name, its operation identifier begins with `Get`. -/
theorem missing_method_defaults_get (s : ConvState) (ep : Endpoint) (u : String)
    (ht : ep.type = none) (hu : ep.url = some u) (hne : u ≠ "") :
    ∃ op, getOp (convertEndpoint s ep).paths (normalizePath u) "get" = some op ∧
      (hasUsableName ep = false → ∃ t, op.operationId = "Get" ++ t) := by
  unfold convertEndpoint
  rw [hu]
  simp only [ht, Option.getD_some, Option.getD_none]
  rw [if_neg hne]
  have hlow : lowerStr "get" = "get" := rfl
  rw [hlow]
  refine ⟨_, getOp_setPath _ _ _ _, ?_⟩
  intro hn
  rw [buildOperation_operationId]
  have hbase : generateOperationId ep
      = "Get" ++ String.join (processPathParts (extractPathParts (jsOr ep.url ""))) := by
    unfold generateOperationId
    rw [hn]
    simp only [Bool.false_eq_true, if_false]
    rw [ht]
    rfl
  obtain ⟨t, hts⟩ := ensureUnique_extends s.used (generateOperationId ep)
  refine ⟨String.join (processPathParts (extractPathParts (jsOr ep.url ""))) ++ t, ?_⟩
  rw [hts, hbase]
  apply String.ext
  simp [String.data_append]

/-- The no-method, no-name record of the claim. -/
def c10Endpoint : Endpoint := { emptyEndpoint with url := some "/company/stats" }

/-- Witness for C10 at the concrete `/company/stats` record. -/
theorem missing_method_defaults_get_witness :
    ∃ op, getOp (convertEndpoint { paths := [], used := [] } c10Endpoint).paths
        (normalizePath "/company/stats") "get" = some op ∧
      (hasUsableName c10Endpoint = false → ∃ t, op.operationId = "Get" ++ t) :=
  missing_method_defaults_get { paths := [], used := [] } c10Endpoint "/company/stats"
    rfl rfl (by decide)

/-! ## Characterization of `normalizePath` -/

theorem normCharsF_congr : ∀ (f g : Nat) (l : List Char), l.length ≤ f → l.length ≤ g →
    normCharsF f l = normCharsF g l := by
  intro f
  induction f with
  | zero =>
    intro g l hf hg
    have hl : l = [] := List.eq_nil_of_length_eq_zero (by omega)
    subst hl
    cases g <;> rfl
  | succ f ih =>
    intro g l hf hg
    cases l with
    | nil => cases g <;> rfl
    | cons c rest =>
      cases g with
      | zero => simp at hg
      | succ g' =>
        simp only [normCharsF]
        simp only [List.length_cons] at hf hg
        by_cases hc : c = ':' ∧ rest.takeWhile isWordChar ≠ []
        · rw [if_pos hc, if_pos hc]
          have hd : (rest.dropWhile isWordChar).length ≤ rest.length :=
            (List.dropWhile_sublist _).length_le
          rw [ih g' (rest.dropWhile isWordChar) (by omega) (by omega)]
        · rw [if_neg hc, if_neg hc]
          rw [ih g' rest (by omega) (by omega)]

theorem normChars_cons_other (c : Char) (rest : List Char)
    (h : ¬(c = ':' ∧ rest.takeWhile isWordChar ≠ [])) :
    normChars (c :: rest) = c :: normChars rest := by
  unfold normChars
  simp only [List.length_cons, normCharsF]
  rw [if_neg h]

theorem normChars_token (rest : List Char) (h : rest.takeWhile isWordChar ≠ []) :
    normChars (':' :: rest)
      = '{' :: (rest.takeWhile isWordChar ++ '}' :: normChars (rest.dropWhile isWordChar)) := by
  have hstep : normChars (':' :: rest)
      = if (':' : Char) = ':' ∧ rest.takeWhile isWordChar ≠ [] then
          '{' :: (rest.takeWhile isWordChar
            ++ '}' :: normCharsF rest.length (rest.dropWhile isWordChar))
        else ':' :: normCharsF rest.length rest := rfl
  rw [hstep, if_pos ⟨rfl, h⟩]
  have hd : (rest.dropWhile isWordChar).length ≤ rest.length :=
    (List.dropWhile_sublist _).length_le
  rw [normCharsF_congr rest.length (rest.dropWhile isWordChar).length _ hd le_rfl]
  rfl

theorem takeWhile_append_of_all (p : Char → Bool) (t l : List Char)
    (ht : ∀ c ∈ t, p c = true) (hl : ∀ c, l.head? = some c → p c = false) :
    (t ++ l).takeWhile p = t := by
  induction t with
  | nil =>
    simp only [List.nil_append]
    cases l with
    | nil => rfl
    | cons c cs =>
      rw [List.takeWhile_cons, if_neg]
      simp [hl c rfl]
  | cons a t' ih =>
    rw [List.cons_append, List.takeWhile_cons, if_pos (ht a (by simp))]
    rw [ih (fun c hc => ht c (by simp [hc]))]

theorem dropWhile_append_of_all (p : Char → Bool) (t l : List Char)
    (ht : ∀ c ∈ t, p c = true) (hl : ∀ c, l.head? = some c → p c = false) :
    (t ++ l).dropWhile p = l := by
  induction t with
  | nil =>
    simp only [List.nil_append]
    cases l with
    | nil => rfl
    | cons c cs =>
      rw [List.dropWhile_cons, if_neg]
      simp [hl c rfl]
  | cons a t' ih =>
    rw [List.cons_append, List.dropWhile_cons, if_pos (ht a (by simp))]
    rw [ih (fun c hc => ht c (by simp [hc]))]

/-- The declared query field used in the C3 witness. -/
def limitField : ApiField :=
  { field := "limit", type := some "Integer", optional := true, description := none }

/-- The declared header field used in the C3 witness. -/
def tokenField : ApiField :=
  { field := "X-Token", type := none, optional := false, description := none }

/-- The query- and header-carrying record used in the C3 witness. -/
def qhEndpoint : Endpoint :=
  { emptyEndpoint with
    url := some "/x/:a",
    parameterFields := some ⟨some [limitField], none, none, none⟩,
    headerFields := some ⟨some [tokenField]⟩ }

/-- C3.  `normalizePath` rewrites every `:token` into `{token}` and copies
every other character; on `/x/:a/:b_c` it produces `/x/{a}/{b_c}` with one
path-parameter descriptor per brace token in left-to-right order; and every
operation's parameter list is path parameters, then query parameters, then
header parameters. -/
theorem normalizePath_contract :
    (∀ (c : Char) (l : List Char), c ≠ ':' → normChars (c :: l) = c :: normChars l) ∧
    (∀ t l : List Char, t ≠ [] → (∀ c ∈ t, isWordChar c = true) →
      (∀ c, l.head? = some c → isWordChar c = false) →
      normChars (':' :: (t ++ l)) = '{' :: (t ++ ('}' :: normChars l))) ∧
    normalizePath "/x/:a/:b_c" = "/x/{a}/{b_c}" ∧
    (extractPathParameters (normalizePath "/x/:a/:b_c")).map (fun p => (p.name, p.location))
      = [("a", "path"), ("b_c", "path")] ∧
    (∀ (used : List String) (ep : Endpoint) (path m : String),
      ((buildOperation used ep path m).1).parameters
        = extractPathParameters path ++ (extractQueryParameters ep ++ extractHeaderParameters ep)) ∧
    (∀ (path : String) (pp : Parameter), pp ∈ extractPathParameters path → pp.location = "path") ∧
    (∀ (ep : Endpoint) (pp : Parameter), pp ∈ extractQueryParameters ep → pp.location = "query") ∧
    (∀ (ep : Endpoint) (pp : Parameter), pp ∈ extractHeaderParameters ep → pp.location = "header") := by
  refine ⟨?_, ?_, rfl, rfl, buildOperation_parameters, ?_, ?_, ?_⟩
  · intro c l hc
    exact normChars_cons_other c l (by simp [hc])
  · intro t l hne ht hl
    rw [normChars_token (t ++ l)
      (by rw [takeWhile_append_of_all isWordChar t l ht hl]; exact hne)]
    rw [takeWhile_append_of_all isWordChar t l ht hl,
      dropWhile_append_of_all isWordChar t l ht hl]
  · intro path pp hpp
    unfold extractPathParameters at hpp
    obtain ⟨tok, _, rfl⟩ := List.mem_map.mp hpp
    rfl
  · intro ep pp hpp
    unfold extractQueryParameters at hpp
    cases hpf : ep.parameterFields with
    | none => rw [hpf] at hpp; simp at hpp
    | some pf =>
      rw [hpf] at hpp
      obtain ⟨f, _, rfl⟩ := List.mem_map.mp hpp
      rfl
  · intro ep pp hpp
    unfold extractHeaderParameters at hpp
    cases hhf : ep.headerFields with
    | none => rw [hhf] at hpp; simp at hpp
    | some hf =>
      rw [hhf] at hpp
      obtain ⟨f, _, rfl⟩ := List.mem_map.mp hpp
      rfl

/-- Witness for C3: the general rewrite facts at concrete characters and
tokens, and the parameter ordering on a record with path, query, and header
parameters. -/
theorem normalizePath_contract_witness :
    (('x' : Char) ≠ ':' ∧ normChars ['x', ':', 'a'] = 'x' :: normChars [':', 'a']) ∧
    ((['b', '_', 'c'] : List Char) ≠ [] ∧
      normChars (':' :: (['b', '_', 'c'] ++ ['/'])) = '{' :: (['b', '_', 'c'] ++ ('}' :: normChars ['/']))) ∧
    ((buildOperation [] qhEndpoint "/x/{a}" "get").1).parameters
      = extractPathParameters "/x/{a}"
        ++ (extractQueryParameters qhEndpoint ++ extractHeaderParameters qhEndpoint) ∧
    ((buildOperation [] qhEndpoint "/x/{a}" "get").1).parameters.map
        (fun p => (p.name, p.location))
      = [("a", "path"), ("limit", "query"), ("X-Token", "header")] := by
  refine ⟨⟨by decide, normalizePath_contract.1 'x' [':', 'a'] (by decide)⟩,
    ⟨by decide, normalizePath_contract.2.1 ['b', '_', 'c'] ['/'] (by decide) (by decide) ?_⟩,
    normalizePath_contract.2.2.2.2.1 [] qhEndpoint "/x/{a}" "get", ?_⟩
  · intro c hc
    simp at hc
    subst hc
    decide
  · rw [normalizePath_contract.2.2.2.2.1 [] qhEndpoint "/x/{a}" "get"]
    decide

/-! ## The claim-side contextual identifier formula (C4) -/

/-- A generic-named record with an underscored group. -/
def c4Endpoint : Endpoint :=
  { emptyEndpoint with
    type := some "get", url := some "/ping",
    name := some "Get", group := some "user_admin" }

/-- The contextual identifier formula as the specification words it: the
group prefix is PascalCased (underscore-to-camel, then first letter
uppercased), included when the group is present and not the literal default
group; path segments are PascalCased, parameter segments from their name
without the marker; `cleanName` is appended and the first letter of the
concatenation capitalized. -/
def contextualIdClaim (ep : Endpoint) : String :=
  let groupPart :=
    match ep.group with
    | some g => if g ≠ "Default" then convertToPascalCase g else ""
    | none => ""
  let segsPart := String.join ((extractPathParts (jsOr ep.url "")).map (fun seg =>
    match seg.toList with
    | ':' :: restChars => convertParamToPascalCase restChars.asString
    | _ => convertToPascalCase seg))
  capitalizeFirst (groupPart ++ segsPart ++ stripNonAlnum (ep.name.getD ""))

/-- Counterexample to C4 as stated: on a generic-named record whose group is
`user_admin`, the code strips the underscore without camel-casing
(`Useradmin...`), while the claim's PascalCased group prefix gives
`UserAdmin...`. -/
theorem contextualIdClaim_counterexample :
    hasUsableName c4Endpoint = true ∧
    isGenericOperationName (stripNonAlnum (c4Endpoint.name.getD "")) = true ∧
    generateOperationId c4Endpoint = "UseradminPingGet" ∧
    contextualIdClaim c4Endpoint = "UserAdminPingGet" ∧
    generateOperationId c4Endpoint ≠ contextualIdClaim c4Endpoint :=
  ⟨rfl, rfl, rfl, rfl, by decide⟩

/-- The claim's formula with the group prefix corrected to what
`getGroupPrefix` does: strip non-alphanumeric characters from the group
(no camel-casing), include it only when the group is truthy and not
`Default`. -/
def contextualIdAmended (ep : Endpoint) : String :=
  let groupPart :=
    match ep.group with
    | some g => if g ≠ "" ∧ g ≠ "Default" then stripNonAlnum g else ""
    | none => ""
  let segsPart := String.join ((extractPathParts (jsOr ep.url "")).map (fun seg =>
    match seg.toList with
    | ':' :: restChars => convertParamToPascalCase restChars.asString
    | _ => convertToPascalCase seg))
  capitalizeFirst (groupPart ++ segsPart ++ stripNonAlnum (ep.name.getD ""))

/-- C4 amended.  For every record with a usable, generic clean name, the
synthesized identifier is the first-letter-capitalized concatenation of the
stripped group prefix, the PascalCased path segments, and the clean name. -/
theorem generateOperationId_generic (ep : Endpoint)
    (hn : hasUsableName ep = true)
    (hg : isGenericOperationName (stripNonAlnum (ep.name.getD "")) = true) :
    generateOperationId ep = contextualIdAmended ep := by
  unfold generateOperationId
  rw [if_pos hn]
  unfold generateOperationIdFromName
  rw [if_pos hg]
  rfl

/-- Witness for the amended C4 at the concrete generic-named record. -/
theorem generateOperationId_generic_witness :
    hasUsableName c4Endpoint = true ∧
    isGenericOperationName (stripNonAlnum (c4Endpoint.name.getD "")) = true ∧
    generateOperationId c4Endpoint = contextualIdAmended c4Endpoint :=
  ⟨rfl, rfl, generateOperationId_generic c4Endpoint rfl rfl⟩

/-! ## The claim-side fallback identifier formula (C5) -/

/-- A nameless record whose declared method is uppercase. -/
def c5GetEndpoint : Endpoint :=
  { emptyEndpoint with type := some "GET", url := some "/company/stats" }

/-- A nameless record whose declared method contains an underscore. -/
def c5UnderscoreEndpoint : Endpoint :=
  { emptyEndpoint with type := some "x_y", url := some "/a" }

/-- The record of the claim's concrete instance. -/
def c5CompanyStats : Endpoint :=
  { emptyEndpoint with type := some "get", url := some "/company/stats" }

/-- The fallback identifier formula as the specification words it:
PascalCase applied to the declared method, then the PascalCased path
segments in URL order. -/
def fallbackIdClaim (ep : Endpoint) : String :=
  convertToPascalCase (jsOr ep.type "get")
    ++ String.join ((extractPathParts (jsOr ep.url "")).map (fun seg =>
      match seg.toList with
      | ':' :: restChars => convertParamToPascalCase restChars.asString
      | _ => convertToPascalCase seg))

/-- Counterexample to C5 as stated: the code lowercases the method before
capitalizing only its first letter, so a record with method `GET` yields
`GetCompanyStats` (claim formula: `GETCompanyStats`), and one with method
`x_y` yields `X_yA` (claim formula: `XYA`). -/
theorem fallbackIdClaim_counterexample :
    hasUsableName c5GetEndpoint = false ∧
    generateOperationId c5GetEndpoint = "GetCompanyStats" ∧
    fallbackIdClaim c5GetEndpoint = "GETCompanyStats" ∧
    generateOperationId c5GetEndpoint ≠ fallbackIdClaim c5GetEndpoint ∧
    hasUsableName c5UnderscoreEndpoint = false ∧
    generateOperationId c5UnderscoreEndpoint = "X_yA" ∧
    fallbackIdClaim c5UnderscoreEndpoint = "XYA" ∧
    generateOperationId c5UnderscoreEndpoint ≠ fallbackIdClaim c5UnderscoreEndpoint :=
  ⟨rfl, rfl, rfl, by decide, rfl, rfl, rfl, by decide⟩

/-- The claim's formula with the method handling corrected to what the code
does: lowercase the method, then capitalize only its first letter (no
underscore-to-camel conversion on the method). -/
def fallbackIdAmended (ep : Endpoint) : String :=
  capitalizeFirst (lowerStr (jsOr ep.type "get"))
    ++ String.join ((extractPathParts (jsOr ep.url "")).map (fun seg =>
      match seg.toList with
      | ':' :: restChars => convertParamToPascalCase restChars.asString
      | _ => convertToPascalCase seg))

/-- C5 amended.  For every record without a usable name the synthesized
identifier is the first-letter-capitalized lowercased method followed by
the PascalCased path segments; in particular `/company/stats` with method
`get` yields `GetCompanyStats`. -/
theorem generateOperationId_fallback :
    (∀ ep : Endpoint, hasUsableName ep = false →
      generateOperationId ep = fallbackIdAmended ep) ∧
    generateOperationId c5CompanyStats = "GetCompanyStats" := by
  refine ⟨?_, rfl⟩
  intro ep hn
  unfold generateOperationId
  rw [if_neg (by simp [hn])]
  rfl

/-- Witness for the amended C5 at the concrete uppercase-method record. -/
theorem generateOperationId_fallback_witness :
    hasUsableName c5GetEndpoint = false ∧
    generateOperationId c5GetEndpoint = fallbackIdAmended c5GetEndpoint :=
  ⟨rfl, generateOperationId_fallback.1 c5GetEndpoint rfl⟩

/-! ## Generic-name disambiguation (C7) -/

/-- A record named `Details` with the given group, method, and URL. -/
def detailsEndpoint (g : Option String) (m u : String) : Endpoint :=
  { emptyEndpoint with
    type := some m, url := some u,
    name := some "Details", group := g }

/-- First record of the C7 counterexample run. -/
def e7a : Endpoint := detailsEndpoint (some "G") "get" "/a/b_c/d"

/-- Second record of the C7 counterexample run: a different URL whose
PascalCased rendering coincides with the first one's. -/
def e7b : Endpoint := detailsEndpoint (some "G") "get" "/a/bC/d"

theorem ends_details_of_append (y : String) :
    ∃ p, capitalizeFirst (y ++ "Details") = p ++ "Details" := by
  cases hy : y.data with
  | nil =>
    refine ⟨"", ?_⟩
    have hy' : y = "" := by
      cases y with
      | mk d => simp only at hy; rw [hy]
    rw [hy']
    rfl
  | cons c cs =>
    refine ⟨((if c.isLower then c.toUpper else c) :: cs).asString, ?_⟩
    apply String.ext
    have hdata : (y ++ "Details").data = c :: (cs ++ "Details".data) := by
      rw [String.data_append, hy]
      rfl
    calc (capitalizeFirst (y ++ "Details")).data
        = capFirstChars ((y ++ "Details").data) := rfl
      _ = capFirstChars (c :: (cs ++ "Details".data)) := by rw [hdata]
      _ = (if c.isLower then c.toUpper else c) :: (cs ++ "Details".data) := by
          unfold capFirstChars
          by_cases h : c.isLower <;> simp [h]
      _ = (((if c.isLower then c.toUpper else c) :: cs).asString ++ "Details").data := by
          rw [String.data_append]
          rfl

/-- Unfolding of identifier synthesis on a `Details` record. -/
theorem generateOperationId_details (g : Option String) (m u : String) (hu : u ≠ "") :
    generateOperationId (detailsEndpoint g m u)
      = capitalizeFirst ((getGroupPrefix (detailsEndpoint g m u) ++ generatePathId u)
          ++ "Details") := by
  unfold generateOperationId
  rw [if_pos (show hasUsableName (detailsEndpoint g m u) = true from rfl)]
  unfold generateOperationIdFromName
  rw [if_pos (show isGenericOperationName
    (stripNonAlnum ((detailsEndpoint g m u).name.getD "")) = true from rfl)]
  unfold generateContextualOperationId
  rw [show jsOr (detailsEndpoint g m u).url "" = u from if_neg hu]
  rfl

/-- C7 amended.  A run converting exactly two records named `Details` with
the same group and usable URLs issues exactly two identifiers; they are
always different; the first always ends in `Details`; and the second also
ends in `Details` provided the two synthesized base identifiers differ
(with the same group this is exactly: the PascalCased path renderings of
the two URLs differ). -/
theorem details_pair_run (g : Option String) (m1 m2 u1 u2 : String)
    (h1 : u1 ≠ "") (h2 : u2 ≠ "") :
    ∃ id1 id2,
      (convertCore [detailsEndpoint g m1 u1, detailsEndpoint g m2 u2]).used = [id1, id2] ∧
      id1 ≠ id2 ∧
      (∃ p, id1 = p ++ "Details") ∧
      (generateOperationId (detailsEndpoint g m1 u1)
          ≠ generateOperationId (detailsEndpoint g m2 u2) →
        ∃ p, id2 = p ++ "Details") := by
  set e1 := detailsEndpoint g m1 u1 with he1
  set e2 := detailsEndpoint g m2 u2 with he2
  set base1 := generateOperationId e1 with hb1
  set base2 := generateOperationId e2 with hb2
  set id2 := (ensureUniqueOperationId [base1] base2).1 with hid2
  have hu1 : (convertEndpoint { paths := [], used := [] } e1).used = [base1] := by
    rw [convertEndpoint_of_url { paths := [], used := [] } e1 u1 rfl h1]
    show (buildOperation [] e1 (normalizePath u1) (lowerStr (e1.type.getD "get"))).2 = [base1]
    rw [buildOperation_snd, ← hb1,
      ensureUnique_of_not_mem [] base1 (List.not_mem_nil base1)]
    rfl
  have hused : (convertCore [e1, e2]).used = [base1, id2] := by
    have hstep : convertCore [e1, e2]
        = convertEndpoint (convertEndpoint { paths := [], used := [] } e1) e2 := rfl
    rw [hstep, convertEndpoint_of_url _ e2 u2 rfl h2]
    show (buildOperation (convertEndpoint { paths := [], used := [] } e1).used e2
      (normalizePath u2) (lowerStr (e2.type.getD "get"))).2 = [base1, id2]
    rw [buildOperation_snd, hu1, ← hb2, ensureUnique_snd [base1] base2]
    rfl
  refine ⟨base1, id2, hused, ?_, ?_, ?_⟩
  · intro heq
    have hfresh := ensureUnique_fresh [base1] base2
    rw [← hid2, ← heq] at hfresh
    exact hfresh (List.mem_singleton_self base1)
  · rw [hb1, generateOperationId_details g m1 u1 h1]
    exact ends_details_of_append _
  · intro hne
    have hnm : base2 ∉ [base1] := by
      intro hmem
      exact hne (by rw [hb1, hb2] at *; exact (List.mem_singleton.mp hmem).symm)
    rw [hid2, ensureUnique_of_not_mem [base1] base2 hnm]
    rw [hb2, generateOperationId_details g m2 u2 h2]
    exact ends_details_of_append _

/-- Witness for the amended C7: two `Details` records with the same group
and distinct base identifiers. -/
theorem details_pair_run_witness :
    ("/a/b/c" : String) ≠ "" ∧ ("/a/b/d" : String) ≠ "" ∧
    ∃ id1 id2,
      (convertCore [detailsEndpoint (some "G") "get" "/a/b/c",
        detailsEndpoint (some "G") "get" "/a/b/d"]).used = [id1, id2] ∧
      id1 ≠ id2 ∧
      (∃ p, id1 = p ++ "Details") ∧
      (generateOperationId (detailsEndpoint (some "G") "get" "/a/b/c")
          ≠ generateOperationId (detailsEndpoint (some "G") "get" "/a/b/d") →
        ∃ p, id2 = p ++ "Details") :=
  ⟨by decide, by decide,
    details_pair_run (some "G") "get" "get" "/a/b/c" "/a/b/d" (by decide) (by decide)⟩

/-- Counterexample to C7 as stated: two records named `Details`, same group
`G`, different URLs of depth 3 (`/a/b_c/d` and `/a/bC/d`) whose PascalCased
renderings coincide; the run issues `GABCDDetails` and `GABCDDetails2`, and
the second does not end in `Details`. -/
theorem details_claim_counterexample :
    e7a.name = some "Details" ∧ e7b.name = some "Details" ∧
    e7a.group = e7b.group ∧ e7a.url ≠ e7b.url ∧
    (extractPathParts "/a/b_c/d").length > 2 ∧ (extractPathParts "/a/bC/d").length > 2 ∧
    (convertCore [e7a, e7b]).used = ["GABCDDetails", "GABCDDetails2"] ∧
    opIds (convertCore [e7a, e7b]).paths = ["GABCDDetails", "GABCDDetails2"] ∧
    ¬ ∃ p : String, ("GABCDDetails2" : String) = p ++ "Details" := by
  have hcoll := ensureUnique_collision ["GABCDDetails"] "GABCDDetails" (by decide) (by decide)
  refine ⟨rfl, rfl, rfl, by decide, by decide, by decide, ?_, ?_, ?_⟩
  · have h1 : (convertCore [e7a, e7b]).used
        = (ensureUniqueOperationId ["GABCDDetails"] "GABCDDetails").2 := rfl
    rw [h1, hcoll]
    rfl
  · have h1 : opIds (convertCore [e7a, e7b]).paths
        = ["GABCDDetails", (ensureUniqueOperationId ["GABCDDetails"] "GABCDDetails").1] := rfl
    rw [h1, hcoll]
    rfl
  · rintro ⟨p, hp⟩
    have hlast := congrArg (fun s => s.data.getLast?) hp
    simp [String.data_append, List.getLast?_append] at hlast
